import Mathlib

/-!
Formal model of the `vote` module of strawberry-py/strawberry-vote
(`src/vote/module.py`): option-block parsing and validation in the
`Vote.vote` command, and message posting, reaction seeding, tallying,
audit logging and result formatting in `VoteObject`.

The platform collaborators (the standard-emoji table `emoji.is_emoji`,
the custom-emoji list `bot.emojis`, translations, the channel) are
parameters of the model; all decision logic is translated from the
source.
-/

namespace StrawberryVote

/-- Whitespace recognised by Python `str.split` with no separator argument,
as used on single lines (line boundaries cannot occur inside a line). -/
def pyIsSpace (c : Char) : Bool :=
  c = ' ' || c = '\t' || c = '\x0b' || c = '\x0c' || c = '\r' || c = '\n'

/-- Line-boundary characters of Python `str.splitlines`. -/
def isLineBoundary (c : Char) : Bool :=
  c = '\n' || c = '\r' || c = '\x0b' || c = '\x0c' ||
  c = '\x1c' || c = '\x1d' || c = '\x1e' || c = '\x85' ||
  c = '\u2028' || c = '\u2029'

/-- Python `str.splitlines` on a character list: a carriage-return and
line-feed pair is one boundary, and a trailing boundary does not open a
final empty line. -/
def splitlinesChars : List Char → List (List Char)
  | [] => []
  | [c] => if isLineBoundary c then [[]] else [[c]]
  | c1 :: c2 :: rest =>
    if isLineBoundary c1 then
      if c1 = '\r' && c2 = '\n' then [] :: splitlinesChars rest
      else [] :: splitlinesChars (c2 :: rest)
    else
      match splitlinesChars (c2 :: rest) with
      | [] => [[c1]]
      | l :: ls => (c1 :: l) :: ls

/-- `options_str.splitlines()` from `Vote.vote`. -/
def pySplitlines (s : String) : List String :=
  (splitlinesChars s.data).map fun cs => String.mk cs

/-- `line.split(maxsplit=1)` followed by unpacking into two names, from
`Vote.vote`: leading whitespace is skipped, the first whitespace-free run
is the token, the whitespace run after it is consumed, and the remainder
is kept verbatim.  `none` models the `ValueError` raised when fewer than
two fields result. -/
def splitMax1 (s : String) : Option (String × String) :=
  let t := s.data.dropWhile pyIsSpace
  let tok := t.takeWhile fun c => !pyIsSpace c
  let rest := (t.dropWhile fun c => !pyIsSpace c).dropWhile pyIsSpace
  if tok.isEmpty || rest.isEmpty then none
  else some (String.mk tok, String.mk rest)

/-- The character class `[a-zA-Z0-9]` of `EMOJI_REGEX`. -/
def isAsciiAlnum (c : Char) : Bool := c.isAlpha || c.isDigit

/-- Anchored match of `EMOJI_REGEX`: an opening angle bracket, an
alphanumeric run, a colon, a non-empty alphanumeric run, a colon, a digit
run, and a closing angle bracket ending the string. -/
def matchesEmojiRegex (s : String) : Bool :=
  match s.data with
  | '<' :: rest =>
    match rest.dropWhile isAsciiAlnum with
    | ':' :: r2 =>
      let name := r2.takeWhile isAsciiAlnum
      (!name.isEmpty) &&
        (match r2.dropWhile isAsciiAlnum with
         | ':' :: r4 => r4.dropWhile Char.isDigit == ['>']
         | _ => false)
    | _ => false
  | _ => false

/-- Python `s.split(":")` on a character list. -/
def splitOnColon : List Char → List (List Char)
  | [] => [[]]
  | c :: rest =>
    if c = ':' then [] :: splitOnColon rest
    else
      match splitOnColon rest with
      | [] => [[c]]
      | l :: ls => (c :: l) :: ls

/-- `emoji_str.split(":")[1]` from `Vote.check_emoji`; on every string that
matches `EMOJI_REGEX` this is the text between the first two colons. -/
def emojiName (s : String) : String :=
  String.mk ((splitOnColon s.data).getD 1 [])

/-- `Vote.check_emoji`, parametrised by the platform emoji knowledge base:
`isStd` models `emoji.is_emoji` and `customNames` the names of the bot's
known custom emojis (`discord.utils.get(self.bot.emojis, name=...)`). -/
def check_emoji (isStd : String → Bool) (customNames : List String)
    (s : String) : Bool :=
  if isStd s then true
  else if matchesEmojiRegex s then customNames.contains (emojiName s)
  else false

/-- The reply-and-return failure modes of the `vote` command. -/
inductive VoteError where
  | invalidDeadline (endtime : String)
  | malformedOption (line : String)
  | unknownEmoji (token : String)
  | duplicateEmoji (token : String)
  deriving Repr, DecidableEq

/-- The option-parsing loop of `Vote.vote`: lines are processed in input
order into the insertion-ordered dict `options`, modelled as an
association list.  A line that does not split into two fields raises
`ValueError` (malformed option); otherwise the token is checked with
`check_emoji` and, when valid, rejected as a duplicate if already a key. -/
def parseOptionsAux (check : String → Bool) :
    List String → List (String × String) →
    Except VoteError (List (String × String))
  | [], options => .ok options
  | line :: rest, options =>
    match splitMax1 line with
    | none => .error (.malformedOption line)
    | some (emoji_str, description) =>
      if check emoji_str then
        if (options.map Prod.fst).contains emoji_str then
          .error (.duplicateEmoji emoji_str)
        else
          parseOptionsAux check rest (options ++ [(emoji_str, description)])
      else .error (.unknownEmoji emoji_str)

/-- The whole option-block validation of `Vote.vote`, from the raw
`options_str` text. -/
def parseOptions (check : String → Bool) (optionsStr : String) :
    Except VoteError (List (String × String)) :=
  parseOptionsAux check (pySplitlines optionsStr) []

/-- The observable effect of posting one poll: the per-option lines of the
message sent by `VoteObject.send_message` (dict order) and the legend
reactions added by `VoteObject.add_reactions` (dict order).  The header
lines of the message come from the translation collaborator. -/
structure PostedPoll where
  optionLines : List String
  reactions : List String
  deriving Repr, DecidableEq

/-- One option line of the posted message. -/
def optionLine (p : String × String) : String := p.1 ++ " - " ++ p.2

/-- `Vote.vote` after deadline parsing: validate the option block; on
success the poll message is sent and its legend reactions added, on
failure the command replies and returns without posting anything. -/
def votePost (check : String → Bool) (optionsStr : String) :
    Except VoteError PostedPoll :=
  match parseOptions check optionsStr with
  | .error e => .error e
  | .ok options => .ok ⟨options.map optionLine, options.map Prod.fst⟩

/-- One reaction entry on the refetched poll message: the emoji, the
distinct non-system users currently reacting, and whether the system's own
seed reaction is still present. -/
structure Reaction where
  emoji : String
  voters : List String
  seedPresent : Bool
  deriving Repr, DecidableEq

/-- `reaction.count`: the number of distinct users currently reacting,
the system included exactly when its seed reaction is present. -/
def rawCount (r : Reaction) : Nat :=
  r.voters.length + (if r.seedPresent then 1 else 0)

/-- The number of distinct voters other than the system itself. -/
def distinctVoterCount (r : Reaction) : Nat := r.voters.length

/-- The tally loop of `VoteObject.start`: every reaction of the refetched
message whose emoji is an option key contributes `reaction.count - 1`;
reactions on other emojis are skipped.  Reaction entries of one message
have pairwise distinct emojis, so the dict is an association list built in
message order. -/
def computeVotes (optionKeys : List String) (reactions : List Reaction) :
    List (String × Int) :=
  reactions.filterMap fun r =>
    if optionKeys.contains r.emoji then some (r.emoji, (rawCount r : Int) - 1)
    else none

/-- One summand of the audit log line. -/
def auditEntry (p : String × Int) : String := toString p.2 ++ "x " ++ p.1

/-- `log_message` from `VoteObject.start`: one summand for every entry of
`votes`, joined in dict order. -/
def auditLine (votes : List (String × Int)) : String :=
  "Vote ended: " ++ String.intercalate ", " (votes.map auditEntry) ++ "."

/-- The audit line as the specification words it: a summand only for the
options with at least one counted vote. -/
def specAuditLine (votes : List (String × Int)) : String :=
  "Vote ended: " ++
    String.intercalate ", "
      ((votes.filter fun p => decide (1 ≤ p.2)).map auditEntry) ++ "."

/-- Stable descending insertion by vote count: an entry moves past exactly
the entries of strictly greater count. -/
def insertDesc (p : String × Int) :
    List (String × Int) → List (String × Int)
  | [] => [p]
  | q :: qs => if p.2 < q.2 then q :: insertDesc p qs else p :: q :: qs

/-- `sorted(votes.items(), key=lambda x: x[1], reverse=True)` from
`VoteObject.start`: a stable sort, descending by count. -/
def sortVotesDesc : List (String × Int) → List (String × Int)
  | [] => []
  | p :: ps => insertDesc p (sortVotesDesc ps)

/-- One results line: count, emoji and the label looked up in the options
dict (`self.options[emoji_str]`). -/
def entryLine (lookup : String → String) (p : String × Int) : String :=
  toString p.2 ++ "x " ++ p.1 ++ " - " ++ lookup p.1

/-- The results-formatting tail of `VoteObject.start`: the sorted entries
are rendered in order and the count of the first sorted entry
(`sorted_votes[0][1]`) marks the winners, wrapped in bold markers.  With
an empty votes dict, `sorted_votes[0]` raises `IndexError`; the model
returns `none` and no results text exists. -/
def resultsLines (lookup : String → String) (votes : List (String × Int)) :
    Option (List String) :=
  match sortVotesDesc votes with
  | [] => none
  | top :: _ =>
    some ((sortVotesDesc votes).map fun p =>
      if p.2 = top.2 then "**" ++ entryLine lookup p ++ "**"
      else entryLine lookup p)

/-- Per-line failure classification as the specification states it:
malformed when the line does not split into token and remainder, else
unknown when the token fails the emoji check, else duplicate when the
token was already used by an earlier line. -/
def lineErrorSpec (check : String → Bool) (seen : List String)
    (line : String) : Option VoteError :=
  match splitMax1 line with
  | none => some (.malformedOption line)
  | some (tok, _) =>
    if !check tok then some (.unknownEmoji tok)
    else if seen.contains tok then some (.duplicateEmoji tok)
    else none

/-! ### Shared lemmas about the parsing loop -/

/-- Reduction helper for conditionals over a Boolean known to be true. -/
theorem if_of_eq_true {α : Sort _} {c : Bool} (h : c = true) (A B : α) :
    (if c = true then A else B) = A := if_pos h

/-- Reduction helper for conditionals over a Boolean known to be false. -/
theorem if_of_eq_false {α : Sort _} {c : Bool} (h : c = false) (A B : α) :
    (if c = true then A else B) = B := by
  rw [if_neg]
  rw [h]
  exact Bool.false_ne_true

/-- Processing a concatenation of line blocks processes the first block and,
when it succeeds, continues with the second from the reached state. -/
theorem parseOptionsAux_append (check : String → Bool) (xs ys : List String) :
    ∀ acc, parseOptionsAux check (xs ++ ys) acc =
      (parseOptionsAux check xs acc).bind
        fun acc2 => parseOptionsAux check ys acc2 := by
  induction xs with
  | nil => intro acc; rfl
  | cons l rest ih =>
    intro acc
    simp only [List.cons_append, parseOptionsAux]
    cases hsp : splitMax1 l with
    | none => simp only [hsp]; rfl
    | some p =>
      obtain ⟨e, d⟩ := p
      simp only [hsp]
      cases hc : check e with
      | false => rfl
      | true =>
        cases hdup : (acc.map Prod.fst).contains e with
        | true => rfl
        | false => exact ih _

/-- A successful run of the parsing loop appends one option per line to the
accumulator, in line order, each line splitting to its option and each
token passing the emoji check. -/
theorem parseOptionsAux_ok (check : String → Bool) :
    ∀ (lines : List String) (acc res : List (String × String)),
      parseOptionsAux check lines acc = .ok res →
      ∃ news, res = acc ++ news ∧
        List.Forall₂
          (fun line o => splitMax1 line = some o ∧ check o.1 = true)
          lines news ∧
        ∀ o ∈ news, check o.1 = true := by
  intro lines
  induction lines with
  | nil =>
    intro acc res h
    simp only [parseOptionsAux, Except.ok.injEq] at h
    exact ⟨[], by simp [h], List.Forall₂.nil, by simp⟩
  | cons l rest ih =>
    intro acc res h
    cases hsp : splitMax1 l with
    | none =>
      simp only [parseOptionsAux, hsp] at h
      exact Except.noConfusion h
    | some p =>
      obtain ⟨e, d⟩ := p
      cases hc : check e with
      | false =>
        simp only [parseOptionsAux, hsp, hc] at h
        exact Except.noConfusion h
      | true =>
        cases hdup : (acc.map Prod.fst).contains e with
        | true =>
          simp only [parseOptionsAux, hsp, hc, hdup] at h
          exact Except.noConfusion h
        | false =>
          simp only [parseOptionsAux, hsp, hc, hdup] at h
          simp only [Bool.false_eq_true, if_false] at h
          obtain ⟨news, hres, hfa, hck⟩ := ih (acc ++ [(e, d)]) res h
          refine ⟨(e, d) :: news, by simp [hres], .cons ⟨hsp, hc⟩ hfa, ?_⟩
          intro o ho
          rcases List.mem_cons.mp ho with rfl | ho
          · exact hc
          · exact hck o ho

/-- Either the whole line list parses, or there is a first failing line:
every line before it parses, and the failure is classified exactly as
`lineErrorSpec` states. -/
theorem parseOptionsAux_first_error (check : String → Bool) :
    ∀ (lines : List String) (acc : List (String × String)),
      (∃ opts, parseOptionsAux check lines acc = .ok opts) ∨
      (∃ pre line suf seen e,
        lines = pre ++ line :: suf ∧
        parseOptionsAux check pre acc = .ok seen ∧
        lineErrorSpec check (seen.map Prod.fst) line = some e ∧
        parseOptionsAux check lines acc = .error e) := by
  intro lines
  induction lines with
  | nil => intro acc; exact .inl ⟨acc, rfl⟩
  | cons l rest ih =>
    intro acc
    cases hsp : splitMax1 l with
    | none =>
      refine .inr ⟨[], l, rest, acc, .malformedOption l, rfl, rfl, ?_, ?_⟩
      · simp only [lineErrorSpec, hsp]
      · simp only [parseOptionsAux, hsp]
    | some p =>
      obtain ⟨e, d⟩ := p
      cases hc : check e with
      | false =>
        refine .inr ⟨[], l, rest, acc, .unknownEmoji e, rfl, rfl, ?_, ?_⟩
        · simp only [lineErrorSpec, hsp, hc, Bool.not_false, if_true]
        · simp only [parseOptionsAux, hsp, hc, Bool.false_eq_true, if_false]
      | true =>
        cases hdup : (acc.map Prod.fst).contains e with
        | true =>
          refine .inr ⟨[], l, rest, acc, .duplicateEmoji e, rfl, rfl, ?_, ?_⟩
          · simp only [lineErrorSpec, hsp, hc, Bool.not_true, hdup,
              Bool.false_eq_true, if_false, if_true]
          · simp only [parseOptionsAux, hsp, hc, hdup, if_true]
        | false =>
          rcases ih (acc ++ [(e, d)]) with ⟨opts, hok⟩ |
            ⟨pre, line, suf, seen, e2, hsplit, hpre, hcls, herr⟩
          · refine .inl ⟨opts, ?_⟩
            simp only [parseOptionsAux, hsp, hc, hdup, Bool.false_eq_true,
              if_false, if_true]
            exact hok
          · refine .inr ⟨l :: pre, line, suf, seen, e2, by simp [hsplit],
              ?_, hcls, ?_⟩
            · simp only [parseOptionsAux, hsp, hc, hdup, Bool.false_eq_true,
                if_false, if_true]
              exact hpre
            · simp only [parseOptionsAux, hsp, hc, hdup, Bool.false_eq_true,
                if_false, if_true]
              exact herr

/-- Parsing past a successfully parsed block fails with a duplicate-emoji
error on the first line whose token repeats an already-recorded key. -/
theorem parseOptionsAux_duplicate (check : String → Bool) (pre : List String)
    (l : String) (suf : List String) (options : List (String × String))
    (e d : String)
    (hpre : parseOptionsAux check pre [] = .ok options)
    (hsplit : splitMax1 l = some (e, d))
    (hmem : e ∈ options.map Prod.fst) :
    parseOptionsAux check (pre ++ l :: suf) [] =
      .error (.duplicateEmoji e) := by
  have hch : check e = true := by
    obtain ⟨news, hres, _, hck⟩ := parseOptionsAux_ok check pre [] options hpre
    simp only [List.nil_append] at hres
    subst hres
    obtain ⟨o, ho, rfl⟩ := List.mem_map.mp hmem
    exact hck o ho
  rw [parseOptionsAux_append check pre (l :: suf) [], hpre]
  have hcon : (options.map Prod.fst).contains e = true := by
    simpa using hmem
  show parseOptionsAux check (l :: suf) options = .error (.duplicateEmoji e)
  simp only [parseOptionsAux, hsplit, hch, hcon, if_true]

/-! ### Shared lemmas about the stable descending sort -/

/-- Inserting an entry yields a permutation of pushing it on the front. -/
theorem insertDesc_perm (p : String × Int) (l : List (String × Int)) :
    (insertDesc p l).Perm (p :: l) := by
  induction l with
  | nil => simp [insertDesc]
  | cons q qs ih =>
    rw [insertDesc]
    by_cases h : p.2 < q.2
    · rw [if_pos h]
      exact (ih.cons q).trans (List.Perm.swap p q qs)
    · rw [if_neg h]

/-- The sorted list is a permutation of the votes list. -/
theorem sortVotesDesc_perm (l : List (String × Int)) :
    (sortVotesDesc l).Perm l := by
  induction l with
  | nil => simp [sortVotesDesc]
  | cons p ps ih =>
    rw [sortVotesDesc]
    exact (insertDesc_perm p (sortVotesDesc ps)).trans (ih.cons p)

/-- Insertion preserves the descending order by count. -/
theorem insertDesc_pairwise (p : String × Int) (l : List (String × Int))
    (h : l.Pairwise fun a b => b.2 ≤ a.2) :
    (insertDesc p l).Pairwise fun a b => b.2 ≤ a.2 := by
  induction l with
  | nil => simp [insertDesc]
  | cons q qs ih =>
    rw [List.pairwise_cons] at h
    obtain ⟨hq, hqs⟩ := h
    rw [insertDesc]
    by_cases hlt : p.2 < q.2
    · rw [if_pos hlt]
      rw [List.pairwise_cons]
      refine ⟨?_, ih hqs⟩
      intro x hx
      rcases List.mem_cons.mp ((insertDesc_perm p qs).mem_iff.mp hx) with rfl | hx
      · exact le_of_lt hlt
      · exact hq x hx
    · rw [if_neg hlt]
      rw [List.pairwise_cons]
      refine ⟨?_, List.pairwise_cons.mpr ⟨hq, hqs⟩⟩
      intro x hx
      rcases List.mem_cons.mp hx with rfl | hx
      · exact le_of_not_lt hlt
      · exact le_trans (hq x hx) (le_of_not_lt hlt)

/-- The sorted votes are in descending count order. -/
theorem sortVotesDesc_pairwise (l : List (String × Int)) :
    (sortVotesDesc l).Pairwise fun a b => b.2 ≤ a.2 := by
  induction l with
  | nil => simp [sortVotesDesc]
  | cons p ps ih =>
    rw [sortVotesDesc]
    exact insertDesc_pairwise p (sortVotesDesc ps) ih

/-- Sorting a non-empty votes list is non-empty. -/
theorem sortVotesDesc_ne_nil (l : List (String × Int)) (h : l ≠ []) :
    sortVotesDesc l ≠ [] := by
  intro h0
  have := (sortVotesDesc_perm l).length_eq
  rw [h0] at this
  exact h (List.length_eq_zero.mp this.symm)

/-- The first sorted entry bounds every count in the votes list. -/
theorem sortVotesDesc_head_max (l : List (String × Int)) (p : String × Int)
    (tl : List (String × Int)) (h : sortVotesDesc l = p :: tl) :
    ∀ q ∈ l, q.2 ≤ p.2 := by
  intro q hq
  have hmem : q ∈ p :: tl := by
    rw [← h]
    exact (sortVotesDesc_perm l).symm.subset hq
  rcases List.mem_cons.mp hmem with rfl | htl
  · exact le_refl _
  · have hp := sortVotesDesc_pairwise l
    rw [h, List.pairwise_cons] at hp
    exact hp.1 q htl

/-! ### Lemmas about line splitting -/

/-- A non-empty character list splits into at least one line. -/
theorem splitlinesChars_ne_nil : ∀ cs : List Char, cs ≠ [] →
    splitlinesChars cs ≠ [] := by
  intro cs h
  cases cs with
  | nil => exact absurd rfl h
  | cons c rest =>
    cases rest with
    | nil =>
      simp only [splitlinesChars]
      split <;> simp
    | cons c2 rest2 =>
      simp only [splitlinesChars]
      split
      · split <;> simp
      · split <;> simp

/-- A non-empty string splits into at least one line. -/
theorem pySplitlines_ne_nil (s : String) (h : s ≠ "") :
    pySplitlines s ≠ [] := by
  have hd : s.data ≠ [] := by
    intro hdata
    apply h
    cases s with
    | mk data =>
      simp only at hdata
      rw [hdata]
  intro hmap
  exact splitlinesChars_ne_nil s.data hd (List.map_eq_nil_iff.mp hmap)

/-! ### Claim theorems -/

/-- Claim C1: for every non-empty tally-entry sequence the announcement
renders the entries in descending-count order (a permutation of the
tally), marks exactly the entries whose count equals the maximum count as
winners in bold markers, and leaves every strictly smaller entry
unmarked. -/
theorem winner_marking (lookup : String → String)
    (votes : List (String × Int)) (hne : votes ≠ []) :
    ∃ top tl, sortVotesDesc votes = top :: tl ∧
      resultsLines lookup votes =
        some ((top :: tl).map fun p =>
          if p.2 = top.2 then "**" ++ entryLine lookup p ++ "**"
          else entryLine lookup p) ∧
      (∀ q ∈ votes, q.2 ≤ top.2) ∧ top ∈ votes ∧
      (top :: tl).Pairwise (fun a b => b.2 ≤ a.2) ∧
      (top :: tl).Perm votes := by
  cases hs : sortVotesDesc votes with
  | nil => exact absurd hs (sortVotesDesc_ne_nil votes hne)
  | cons top tl =>
    refine ⟨top, tl, rfl, ?_, ?_, ?_, ?_, ?_⟩
    · simp only [resultsLines, hs]
    · exact sortVotesDesc_head_max votes top tl hs
    · have htop : top ∈ sortVotesDesc votes := by
        rw [hs]
        exact List.mem_cons_self top tl
      exact (sortVotesDesc_perm votes).subset htop
    · have hp := sortVotesDesc_pairwise votes
      rwa [hs] at hp
    · have hp := sortVotesDesc_perm votes
      rwa [hs] at hp

/-- Concrete run of the winner-marking theorem on the tally a = 2, b = 1. -/
theorem winner_marking_witness :
    ∃ top tl,
      sortVotesDesc [(("a" : String), (2 : Int)), ("b", 1)] = top :: tl ∧
      resultsLines (fun _ => "L") [("a", 2), ("b", 1)] =
        some ((top :: tl).map fun p =>
          if p.2 = top.2 then "**" ++ entryLine (fun _ => "L") p ++ "**"
          else entryLine (fun _ => "L") p) ∧
      (∀ q ∈ [(("a" : String), (2 : Int)), ("b", 1)], q.2 ≤ top.2) ∧
      top ∈ [(("a" : String), (2 : Int)), ("b", 1)] ∧
      (top :: tl).Pairwise (fun a b => b.2 ≤ a.2) ∧
      (top :: tl).Perm [("a", 2), ("b", 1)] :=
  winner_marking (fun _ => "L") [("a", 2), ("b", 1)] (by decide)

/-- Claim C2 counterexample: with one distinct voter and the system's seed
reaction removed, the code tallies raw count minus one and records 0,
not the one distinct voter the claim promises. -/
theorem tally_seed_removed_cex :
    computeVotes ["x"] [⟨"x", ["u"], false⟩] = [("x", 0)] ∧
    distinctVoterCount ⟨"x", ["u"], false⟩ = 1 ∧ (0 : Int) ≠ (1 : Int) :=
  ⟨rfl, rfl, by decide⟩

/-- Claim C2 amended: the tallied count of an option is its raw reaction
count minus one, which equals the number of distinct voters exactly when
the system's seed reaction is still present on the entry. -/
theorem tally_counts_voters_when_seed_present (optionKeys : List String)
    (reactions : List Reaction)
    (hseed : ∀ r ∈ reactions, r.seedPresent = true) :
    computeVotes optionKeys reactions = reactions.filterMap fun r =>
      if optionKeys.contains r.emoji then
        some (r.emoji, (distinctVoterCount r : Int))
      else none := by
  induction reactions with
  | nil => rfl
  | cons r rest ih =>
    have hr := hseed r (List.mem_cons_self r rest)
    have hrest : ∀ x ∈ rest, x.seedPresent = true := fun x hx =>
      hseed x (List.mem_cons_of_mem r hx)
    have ih2 := ih hrest
    simp only [computeVotes] at ih2 ⊢
    rw [List.filterMap_cons, List.filterMap_cons]
    cases hk : optionKeys.contains r.emoji with
    | false =>
      simp only [hk, Bool.false_eq_true, if_false]
      exact ih2
    | true =>
      simp only [hk, if_true]
      rw [ih2]
      have hhead : ((rawCount r : Int) - 1) = (distinctVoterCount r : Int) := by
        simp only [rawCount, distinctVoterCount, hr, if_true]
        push_cast
        ring
      rw [hhead]

/-- Concrete run of the seed-present tally theorem: two distinct voters
and the seed still present give count 2. -/
theorem tally_counts_voters_when_seed_present_witness :
    (∀ r ∈ [(⟨"x", ["u", "v"], true⟩ : Reaction)], r.seedPresent = true) ∧
    computeVotes ["x"] [⟨"x", ["u", "v"], true⟩] = [("x", 2)] := by
  refine ⟨by decide, ?_⟩
  rw [tally_counts_voters_when_seed_present ["x"] [⟨"x", ["u", "v"], true⟩]
    (by decide)]
  rfl

/-- Claim C3 counterexample: with an empty votes dict at ranking time no
results are produced at all — taking the maximum from the empty sorted
list fails — rather than every option rendering as a winner tied at 0. -/
theorem empty_votes_no_results_cex :
    resultsLines (fun _ => "") [] = none := rfl

/-- Claim C3 amended: with an empty votes dict the formatting step fails
and yields no results text; the no-special-case behaviour holds only for
a non-empty votes dict, where all-zero counts make the maximum 0 and
every entry is rendered as a winner. -/
theorem all_zero_counts_all_winners (lookup : String → String)
    (votes : List (String × Int)) (hne : votes ≠ [])
    (hz : ∀ p ∈ votes, p.2 = 0) :
    resultsLines lookup votes =
      some ((sortVotesDesc votes).map fun p =>
        "**" ++ entryLine lookup p ++ "**") := by
  cases hs : sortVotesDesc votes with
  | nil => exact absurd hs (sortVotesDesc_ne_nil votes hne)
  | cons top tl =>
    have hall : ∀ q ∈ (top :: tl), q.2 = 0 := by
      intro q hq
      apply hz
      apply (sortVotesDesc_perm votes).subset
      rw [hs]
      exact hq
    simp only [resultsLines, hs]
    refine congrArg some (List.map_congr_left ?_)
    intro p hp
    have hp2 : p.2 = top.2 := by
      rw [hall p hp, hall top (List.mem_cons_self top tl)]
    rw [if_pos hp2]

/-- Concrete run of the all-zero tally theorem on two options tied at 0. -/
theorem all_zero_counts_all_winners_witness :
    resultsLines (fun _ => "L") [("a", 0), ("b", 0)] =
      some ((sortVotesDesc [("a", 0), ("b", 0)]).map fun p =>
        "**" ++ entryLine (fun _ => "L") p ++ "**") :=
  all_zero_counts_all_winners (fun _ => "L") [("a", 0), ("b", 0)]
    (by decide) (by decide)

/-- Claim C4 counterexample: option x has no reaction entry at all on the
refetched message and is omitted from the tally, not recorded with
count 0. -/
theorem option_without_reaction_omitted_cex :
    computeVotes ["x", "y"] [⟨"y", [], true⟩] = [("y", 0)] ∧
    "x" ∉ (computeVotes ["x", "y"] [⟨"y", [], true⟩]).map Prod.fst :=
  ⟨rfl, by decide⟩

/-- Claim C4 amended: the tally keys are exactly the reaction emojis
present on the refetched message that are option keys, in message order;
each such entry is recorded with raw count minus one — count 0 when only
the seed remains — while an option emoji with no reaction entry is
omitted. -/
theorem tally_keys_are_present_reactions (optionKeys : List String)
    (reactions : List Reaction) :
    (computeVotes optionKeys reactions).map Prod.fst =
      (reactions.map Reaction.emoji).filter
        (fun e => optionKeys.contains e) ∧
    ∀ r ∈ reactions, optionKeys.contains r.emoji = true →
      (r.emoji, (rawCount r : Int) - 1) ∈
        computeVotes optionKeys reactions := by
  constructor
  · induction reactions with
    | nil => rfl
    | cons r rest ih =>
      simp only [computeVotes] at ih ⊢
      rw [List.map_cons, List.filter_cons, List.filterMap_cons]
      cases hk : optionKeys.contains r.emoji with
      | false =>
        simp only [hk, Bool.false_eq_true, if_false]
        exact ih
      | true =>
        simp only [hk, if_true, List.map_cons]
        rw [ih]
  · intro r hr hk
    simp only [computeVotes, List.mem_filterMap]
    exact ⟨r, hr, by simp only [hk, if_true]⟩

/-- Concrete run of the tally-keys theorem: the only reaction entry (the
seeded y with no further voters) is recorded as 0; x is not a key. -/
theorem tally_keys_are_present_reactions_witness :
    (computeVotes ["x", "y"] [⟨"y", [], true⟩]).map Prod.fst = ["y"] ∧
    ("y", (0 : Int)) ∈ computeVotes ["x", "y"] [⟨"y", [], true⟩] := by
  have h := tally_keys_are_present_reactions ["x", "y"] [⟨"y", [], true⟩]
  refine ⟨by rw [h.1]; rfl, ?_⟩
  have h2 := h.2 ⟨"y", [], true⟩ (by decide) (by decide)
  have h0 : ((rawCount ⟨"y", [], true⟩ : Int) - 1) = 0 := by decide
  rw [h0] at h2
  exact h2

/-- Claim C5 counterexample: the valid token appears with labels on the
first and third lines, yet the malformed second line aborts the command
first — the failure is the malformed-option error, not the
duplicate-emoji error. -/
theorem duplicate_preempted_cex :
    check_emoji (fun s => s == ":one:") [] ":one:" = true ∧
    votePost (check_emoji (fun s => s == ":one:") []) ":one: a\nxx\n:one: b" =
      .error (.malformedOption "xx") :=
  ⟨rfl, rfl⟩

/-- Claim C5 amended: when every line before the first repeated occurrence
of a valid emoji token parses as an option, the command fails with the
duplicate-emoji error at that repeated occurrence and no poll message is
posted. -/
theorem duplicate_emoji_first_repeat (isStd : String → Bool)
    (customNames : List String) (s : String) (pre : List String) (l : String)
    (suf : List String) (options : List (String × String)) (e d : String)
    (hs : pySplitlines s = pre ++ l :: suf)
    (hpre : parseOptionsAux (check_emoji isStd customNames) pre [] =
      .ok options)
    (hsplit : splitMax1 l = some (e, d))
    (hmem : e ∈ options.map Prod.fst) :
    votePost (check_emoji isStd customNames) s =
      .error (.duplicateEmoji e) := by
  have herr := parseOptionsAux_duplicate (check_emoji isStd customNames)
    pre l suf options e d hpre hsplit hmem
  simp only [votePost, parseOptions, hs, herr]

/-- Concrete run of the first-repeat theorem: the same valid token on both
lines fails as a duplicate and nothing is posted. -/
theorem duplicate_emoji_first_repeat_witness :
    votePost (check_emoji (fun t => t == ":one:") []) ":one: a\n:one: b" =
      .error (.duplicateEmoji ":one:") :=
  duplicate_emoji_first_repeat (fun t => t == ":one:") [] ":one: a\n:one: b"
    [":one: a"] ":one: b" [] [(":one:", "a")] ":one:" "b"
    (by rfl) (by rfl) (by rfl) (by decide)

/-- Claim C6: option parsing examines lines in input order and fails
atomically at the first failing line — malformed when the line has no
whitespace-separated remainder, else unknown when the token fails the
emoji check, else duplicate — and on such a failure no option set is
produced and nothing is posted. -/
theorem parse_first_error_order (isStd : String → Bool)
    (customNames : List String) (s : String) :
    (∃ opts, parseOptions (check_emoji isStd customNames) s = .ok opts ∧
      votePost (check_emoji isStd customNames) s =
        .ok ⟨opts.map optionLine, opts.map Prod.fst⟩) ∨
    (∃ pre line suf seen e,
      pySplitlines s = pre ++ line :: suf ∧
      parseOptionsAux (check_emoji isStd customNames) pre [] = .ok seen ∧
      lineErrorSpec (check_emoji isStd customNames) (seen.map Prod.fst)
        line = some e ∧
      parseOptions (check_emoji isStd customNames) s = .error e ∧
      votePost (check_emoji isStd customNames) s = .error e) := by
  rcases parseOptionsAux_first_error (check_emoji isStd customNames)
      (pySplitlines s) [] with ⟨opts, hok⟩ |
    ⟨pre, line, suf, seen, e, hsplit, hpre, hcls, herr⟩
  · refine .inl ⟨opts, hok, ?_⟩
    simp only [votePost, parseOptions, hok]
  · refine .inr ⟨pre, line, suf, seen, e, hsplit, hpre, hcls, herr, ?_⟩
    simp only [votePost, parseOptions, herr]

/-- Claim C7: for every valid options block the parsed option sequence
corresponds line by line, in order, to the input lines; the posted poll
message lists the options in that order and the legend reactions are
attached one per option in that same order. -/
theorem options_order_preserved (isStd : String → Bool)
    (customNames : List String) (s : String) (opts : List (String × String))
    (hok : parseOptions (check_emoji isStd customNames) s = .ok opts) :
    List.Forall₂
      (fun line o => splitMax1 line = some o ∧
        check_emoji isStd customNames o.1 = true)
      (pySplitlines s) opts ∧
    votePost (check_emoji isStd customNames) s =
      .ok ⟨opts.map optionLine, opts.map Prod.fst⟩ := by
  obtain ⟨news, hres, hfa, -⟩ :=
    parseOptionsAux_ok (check_emoji isStd customNames) (pySplitlines s) []
      opts hok
  have hok2 : parseOptionsAux (check_emoji isStd customNames)
      (pySplitlines s) [] = .ok opts := hok
  constructor
  · simp only [List.nil_append] at hres
    rw [hres]
    exact hfa
  · simp only [votePost, parseOptions, hok2]

/-- Concrete run of the order-preservation theorem on a two-option block
with one standard and one custom emoji. -/
theorem options_order_preserved_witness :
    List.Forall₂
      (fun line o => splitMax1 line = some o ∧
        check_emoji (fun t => t == "🍓") ["kek"] o.1 = true)
      (pySplitlines "🍓 straw\n<:kek:123> lol")
      [("🍓", "straw"), ("<:kek:123>", "lol")] ∧
    votePost (check_emoji (fun t => t == "🍓") ["kek"])
        "🍓 straw\n<:kek:123> lol" =
      .ok ⟨[("🍓", "straw"), ("<:kek:123>", "lol")].map optionLine,
        [("🍓", "straw"), ("<:kek:123>", "lol")].map Prod.fst⟩ :=
  options_order_preserved (fun t => t == "🍓") ["kek"]
    "🍓 straw\n<:kek:123> lol" [("🍓", "straw"), ("<:kek:123>", "lol")]
    (by rfl)

/-- Claim C8 counterexample: the empty options text yields zero lines; the
parse succeeds with an empty option set and the poll is posted — with no
option lines and no legend reactions — rather than rejected. -/
theorem empty_options_posts_poll_cex :
    votePost (check_emoji (fun _ => false) []) "" = .ok ⟨[], []⟩ := rfl

/-- Claim C8 amended: a successful parse of a non-empty options text
yields at least one option (one per input line); the empty options text
is not rejected and yields a posted poll with zero options. -/
theorem nonempty_input_at_least_one_option (isStd : String → Bool)
    (customNames : List String) (s : String)
    (opts : List (String × String)) (hne : s ≠ "")
    (hok : parseOptions (check_emoji isStd customNames) s = .ok opts) :
    opts ≠ [] := by
  obtain ⟨news, hres, hfa, -⟩ :=
    parseOptionsAux_ok (check_emoji isStd customNames) (pySplitlines s) []
      opts hok
  simp only [List.nil_append] at hres
  subst hres
  intro h0
  have hlen := hfa.length_eq
  rw [h0] at hlen
  exact pySplitlines_ne_nil s hne (List.length_eq_zero.mp hlen)

/-- Concrete run of the at-least-one-option theorem on a one-line block. -/
theorem nonempty_input_at_least_one_option_witness :
    [(("a" : String), ("b" : String))] ≠ ([] : List (String × String)) :=
  nonempty_input_at_least_one_option (fun t => t == "a") [] "a b"
    [("a", "b")] (by decide) (by rfl)

/-- Claim C9 counterexample: an option with zero counted votes appears in
the audit line as a 0x summand; the line differs from the
positive-entries-only summary the claim describes. -/
theorem audit_line_zero_count_cex :
    auditLine [("x", 0)] = "Vote ended: 0x x." ∧
    specAuditLine [("x", 0)] = "Vote ended: ." ∧
    auditLine [("x", 0)] ≠ specAuditLine [("x", 0)] :=
  ⟨rfl, rfl, by decide⟩

/-- Claim C9 amended: the audit line summarises one `count x emoji`
summand for every entry of the votes dict in order, zero counts included;
it coincides with the at-least-one-counted-vote summary exactly on votes
whose entries all have positive counts. -/
theorem audit_line_all_entries (votes : List (String × Int))
    (h : ∀ p ∈ votes, 1 ≤ p.2) :
    auditLine votes = specAuditLine votes := by
  have hfilter : (votes.filter fun p => decide (1 ≤ p.2)) = votes :=
    List.filter_eq_self.mpr fun a ha => by simpa using h a ha
  simp only [auditLine, specAuditLine, hfilter]

/-- Concrete run of the audit-line theorem on a single positive entry. -/
theorem audit_line_all_entries_witness :
    auditLine [("a", 3)] = specAuditLine [("a", 3)] :=
  audit_line_all_entries [("a", 3)] (by decide)

/-- Claim C10: an options block with a blank line following successfully
parsed option lines fails with the malformed-option error for the empty
line — blank lines are not skipped or tolerated — and nothing is
posted. -/
theorem blank_line_malformed (isStd : String → Bool)
    (customNames : List String) (s : String) (pre suf : List String)
    (seen : List (String × String))
    (hs : pySplitlines s = pre ++ "" :: suf)
    (hpre : parseOptionsAux (check_emoji isStd customNames) pre [] =
      .ok seen) :
    parseOptions (check_emoji isStd customNames) s =
      .error (.malformedOption "") ∧
    votePost (check_emoji isStd customNames) s =
      .error (.malformedOption "") := by
  have herr : parseOptionsAux (check_emoji isStd customNames)
      (pre ++ "" :: suf) [] = .error (.malformedOption "") := by
    rw [parseOptionsAux_append _ pre ("" :: suf) [], hpre]
    rfl
  constructor
  · show parseOptionsAux _ (pySplitlines s) [] = _
    rw [hs]
    exact herr
  · simp only [votePost, parseOptions, hs, herr]

/-- Concrete run of the blank-line theorem: a blank line between two valid
option lines fails the whole command as a malformed empty option. -/
theorem blank_line_malformed_witness :
    parseOptions (check_emoji (fun t => t == ":a:" || t == ":b:") [])
        ":a: x\n\n:b: y" = .error (.malformedOption "") ∧
    votePost (check_emoji (fun t => t == ":a:" || t == ":b:") [])
        ":a: x\n\n:b: y" = .error (.malformedOption "") :=
  blank_line_malformed (fun t => t == ":a:" || t == ":b:") []
    ":a: x\n\n:b: y" [":a: x"] [":b: y"] [(":a:", "x")] (by rfl) (by rfl)

end StrawberryVote
